import Mathlib

/-!
Verification of the data ingestion and reconciliation layer of the
four-school EC-experiment dashboard (`src/main.py`).

Python strings are embedded as lists of Unicode code points (`Str`).
`unicodedata.normalize("NFC", ·)` / `("NFD", ·)` are embedded by the
standard Unicode Hangul composition/decomposition algorithm, which is the
complete normalization behaviour on the character repertoire this program
touches (precomposed Hangul syllables, conjoining jamo, ASCII): none of
those characters carry any other canonical decomposition or combining
class, so NFC/NFD act on them exactly as the Hangul algorithm does.

Numeric cell values are embedded as rationals; pandas' NaN (the mean of an
empty column) is the `PVal.nan` constructor.  Python `dict`s are embedded
as insertion-ordered association lists, with assignment `d[k] = v`
embedded by `dictInsert` (update in place if the key exists, else append),
matching CPython's insertion-order semantics.
-/

/-- A Python string, as its list of Unicode code points. -/
abbrev Str := List Nat

/-- Code points of a Lean string literal (used to transcribe the Korean literals of the source). -/
def strCodes (s : String) : Str := s.data.map Char.toNat

/-! ### Unicode Hangul normalization (embedding of `unicodedata.normalize`) -/

/-- First Hangul precomposed syllable, U+AC00. -/
def sBase : Nat := 0xAC00
/-- First leading-consonant (choseong) jamo, U+1100. -/
def lBase : Nat := 0x1100
/-- First vowel (jungseong) jamo, U+1161. -/
def vBase : Nat := 0x1161
/-- One less than the first trailing-consonant (jongseong) jamo; U+11A7. -/
def tBase : Nat := 0x11A7
/-- Number of trailing-consonant choices per LV pair (including "none"). -/
def tCount : Nat := 28
/-- Number of syllables per leading consonant (21 vowels * 28 trailings). -/
def nCount : Nat := 588
/-- Number of precomposed Hangul syllables. -/
def sCount : Nat := 11172

/-- Is `c` a precomposed Hangul syllable (U+AC00..U+D7A3)? -/
def isSyl (c : Nat) : Bool := sBase ≤ c && c < sBase + sCount

/-- Is `c` a leading-consonant jamo that takes part in composition (U+1100..U+1112)? -/
def isLJamo (c : Nat) : Bool := lBase ≤ c && c ≤ 0x1112

/-- Is `c` a vowel jamo that takes part in composition (U+1161..U+1175)? -/
def isVJamo (c : Nat) : Bool := vBase ≤ c && c ≤ 0x1175

/-- Is `c` a trailing-consonant jamo that takes part in composition (U+11A8..U+11C2)? -/
def isTJamo (c : Nat) : Bool := tBase + 1 ≤ c && c ≤ 0x11C2

/-- Is `c` a precomposed syllable with no trailing consonant (an LV syllable)? -/
def isLVSyl (c : Nat) : Bool := isSyl c && (c - sBase) % tCount == 0

/-- Canonical decomposition of one code point: a Hangul syllable splits into
its two or three conjoining jamo; every other character of this program's
repertoire is its own decomposition. -/
def decomposeChar (c : Nat) : List Nat :=
  if isSyl c then
    let si := c - sBase
    let l := lBase + si / nCount
    let v := vBase + si % nCount / tCount
    let t := si % tCount
    if t == 0 then [l, v] else [l, v, tBase + t]
  else [c]

/-- Embedding of `unicodedata.normalize("NFD", s)`. -/
def nfd (s : Str) : Str := s.flatMap decomposeChar

/-- Canonical (Hangul) composition pass: `prev` is the last character already
processed; an L jamo followed by a V jamo fuses into an LV syllable, and an
LV syllable followed by a T jamo fuses into an LVT syllable. -/
def nfcAux : Nat → List Nat → List Nat
  | prev, [] => [prev]
  | prev, c :: rest =>
    if isLJamo prev && isVJamo c then
      nfcAux (sBase + (prev - lBase) * nCount + (c - vBase) * tCount) rest
    else if isLVSyl prev && isTJamo c then
      nfcAux (prev + (c - tBase)) rest
    else prev :: nfcAux c rest

/-- Embedding of `unicodedata.normalize("NFC", s)`. -/
def nfc : Str → Str
  | [] => []
  | c :: rest => nfcAux c rest

/-! ### Substring containment (Python's `in` on strings) -/

/-- Does `hay` start with `needle`? -/
def headMatch : List Nat → List Nat → Bool
  | [], _ => true
  | _ :: _, [] => false
  | a :: as, b :: bs => a == b && headMatch as bs

/-- Embedding of Python's `needle in hay` substring test. -/
def hasSubstr (needle : Str) : Str → Bool
  | [] => headMatch needle []
  | c :: rest => headMatch needle (c :: rest) || hasSubstr needle rest

/-! ### Insertion-ordered dictionaries (Python `dict`) -/

/-- Embedding of Python's `d[k] = v`: replace the value in place if the key
is present, otherwise append the pair at the end (insertion order). -/
def dictInsert (k : Str) (v : α) : List (Str × α) → List (Str × α)
  | [] => [(k, v)]
  | (k', v') :: rest => if k' = k then (k, v) :: rest else (k', v') :: dictInsert k v rest

/-- Embedding of Python's `d[k]` / `k in d` lookup on an insertion-ordered dict. -/
def lookupDict (k : Str) : List (Str × α) → Option α
  | [] => none
  | (k', v') :: rest => if k' = k then some v' else lookupDict k rest

/-! ### Config Registry (`school_info`, src/main.py lines 37-42) -/

/-- The static school registry: identifier, target EC, display color. -/
def school_info : List (Str × ℚ × String) :=
  [(strCodes "송도고", (1, "#AB63FA")),
   (strCodes "하늘고", (2, "#EF553B")),
   (strCodes "아라고", (4, "#00CC96")),
   (strCodes "동산고", (8, "#636EFA"))]

/-- `school_info.keys()`: the fixed enumeration order of school identifiers. -/
def schoolNames : List Str := school_info.map (·.1)

/-- `school_info[s]['ec_target']`.  Every caller in the source indexes with a
key that is one of the four registry identifiers, so the fallback value of
the embedding is never consulted. -/
def ecTargetOf (s : Str) : ℚ := ((lookupDict s school_info).map (·.1)).getD 0

/-! ### Filename Resolver (src/main.py lines 48-52 and 61-63) -/

/-- Does listing entry `f` (compared as stored, un-renormalized) equal the
NFC or the NFD normalization of the logical target name? -/
def fileMatches (target f : Str) : Bool := f == nfc target || f == nfd target

/-- Embedding of `next((f for f in files if f.name == target_nfc or f.name == target_nfd), None)`. -/
def resolveFile (files : List Str) (target : Str) : Option Str :=
  files.find? (fileMatches target)

/-- The per-school environment CSV target name, `f"{school_name}_환경데이터.csv"`. -/
def envTargetName (s : Str) : Str := s ++ strCodes "_환경데이터.csv"

/-- The shared growth workbook target name, `"4개교_생육결과데이터.xlsx"`. -/
def xlsxName : Str := strCodes "4개교_생육결과데이터.xlsx"

/-! ### Data model (rows of the parsed tables) -/

/-- One parsed row of a per-school environment CSV (`time` already parsed
by `pd.to_datetime`, embedded as an abstract integer instant). -/
structure EnvRow where
  time : Int
  temperature : ℚ
  humidity : ℚ
  ph : ℚ
  ec : ℚ
deriving DecidableEq

/-- An environment row after the loader's `df['school'] = school_name` tag. -/
structure EnvRec extends EnvRow where
  school : Str
deriving DecidableEq

/-- One parsed row of a growth workbook sheet: `생중량(g)`, `잎 수(장)`,
`지상부 길이(mm)`. -/
structure GrowthRow where
  freshWeight : ℚ
  leafCount : ℚ
  shootLength : ℚ
deriving DecidableEq

/-- A growth row after the loader's tags `df['school'] = school_name` and
`df['ec_target'] = school_info[school_name]['ec_target']`. -/
structure GrowthRec extends GrowthRow where
  school : Str
  ec_target : ℚ
deriving DecidableEq

/-- The source directory as the loader sees it: whether `Path("data")`
exists, its file listing, and the parsed content behind each CSV file name
and each workbook file name (a workbook is its list of
`(sheet name, parsed rows)` in sheet order). -/
structure FS where
  dirExists : Bool
  files : List Str
  csv : Str → List EnvRow
  sheets : Str → List (Str × List GrowthRow)

/-! ### Table Loader (src/main.py lines 48-75) -/

/-- Tag every row of an environment CSV with its school (line 57). -/
def tagEnvRows (s : Str) (rows : List EnvRow) : List EnvRec :=
  rows.map fun r => ⟨r, s⟩

/-- Tag every row of a classified growth sheet with its school and the
school's registered target EC (lines 73-74). -/
def tagRows (s : Str) (rows : List GrowthRow) : List GrowthRec :=
  rows.map fun r => ⟨r, s, ecTargetOf s⟩

/-- The environment-CSV loop (lines 48-58): for each school in registry
order, resolve its CSV and, when found, store the tagged table under the
school's key. -/
def loadEnv (fs : FS) : List (Str × List EnvRec) :=
  schoolNames.filterMap fun s =>
    (resolveFile fs.files (envTargetName s)).map fun m => (s, tagEnvRows s (fs.csv m))

/-- The inner classification loop for one sheet (lines 69-75): every school
whose identifier is contained in the NFC-normalized sheet name receives the
sheet's rows, tagged, via dict assignment.  The source has no `break`, so
the loop does not stop at the first matching school. -/
def assignSheet (acc : List (Str × List GrowthRec)) (sh : Str × List GrowthRow) :
    List (Str × List GrowthRec) :=
  schoolNames.foldl
    (fun a s => if hasSubstr s (nfc sh.1) then dictInsert s (tagRows s sh.2) a else a) acc

/-- The sheet loop (lines 68-75): classify every sheet of the workbook in
sheet order into `growth_df_dict`. -/
def classifySheets (sheets : List (Str × List GrowthRow)) : List (Str × List GrowthRec) :=
  sheets.foldl assignSheet []

/-- The growth-workbook part (lines 61-75): resolve the shared workbook
once; when absent, `growth_df_dict` stays the empty dict. -/
def loadGrowth (fs : FS) : List (Str × List GrowthRec) :=
  match resolveFile fs.files xlsxName with
  | some m => classifySheets (fs.sheets m)
  | none => []

/-- Embedding of `load_data` (lines 27-77): `none` is the
missing-directory early return (`return None, None`), after which no table
reaches the caller; otherwise the pair of `env_dfs` and `growth_df_dict`.
(The static `school_info` registry it also returns is the constant above.) -/
def load_data (fs : FS) : Option (List (Str × List EnvRec) × List (Str × List GrowthRec)) :=
  if fs.dirExists then some (loadEnv fs, loadGrowth fs) else none

/-! ### Dataset Aggregator (src/main.py lines 83-87, 138-148, 194-197) -/

/-- A pandas numeric cell that may be NaN (the mean of an empty column). -/
inductive PVal where
  | nan : PVal
  | val : ℚ → PVal
deriving DecidableEq

/-- Embedding of pandas `Series.mean()`: NaN on an empty column, the
arithmetic mean otherwise. -/
def pmean : List ℚ → PVal
  | [] => .nan
  | x :: xs => .val ((x :: xs).sum / (x :: xs).length)

/-- Embedding of lines 83-87: the caller guard
`if not env_data or not growth_data: st.stop()` halts the script (no
unified table is ever produced) when either dict is empty; otherwise
`all_growth_df = pd.concat(growth_data.values(), ignore_index=True)`
concatenates the per-school tables in dict order. -/
def all_growth_df (env : List (Str × List EnvRec))
    (growth : List (Str × List GrowthRec)) : Option (List GrowthRec) :=
  if env.isEmpty || growth.isEmpty then none
  else some ((growth.map (·.2)).foldr (· ++ ·) [])

/-- One row of `stat_df` (lines 138-148): per-school means of the
environment columns plus the registered target EC. -/
structure EnvStat where
  school : Str
  temp : PVal
  hum : PVal
  ph : PVal
  ecActual : PVal
  ecTarget : ℚ
deriving DecidableEq

/-- Embedding of the `env_stats` loop (lines 138-148): one stats row per
entry of `env_data`, in dict order, whatever the table's size. -/
def env_stats (env : List (Str × List EnvRec)) : List EnvStat :=
  env.map fun p =>
    ⟨p.1, pmean (p.2.map (·.temperature)), pmean (p.2.map (·.humidity)),
     pmean (p.2.map (·.ph)), pmean (p.2.map (·.ec)), ecTargetOf p.1⟩

/-- Code-point lexicographic order on strings (how pandas sorts the group
keys of `groupby('school')`). -/
def lexLe : List Nat → List Nat → Bool
  | [], _ => true
  | _ :: _, [] => false
  | a :: as, b :: bs => decide (a < b) || (a == b && lexLe as bs)

/-- The distinct values of the `school` column, in first-appearance order. -/
def dedupKeys (ss : List Str) : List Str :=
  ss.foldl (fun acc s => if s ∈ acc then acc else acc ++ [s]) []

/-- The group keys of `groupby('school')` (pandas sorts them ascending). -/
def groupKeys (rows : List GrowthRec) : List Str :=
  List.insertionSort (fun a b => lexLe a b = true) (dedupKeys (rows.map (·.school)))

/-- One row of `groupby('school').mean(numeric_only=True).reset_index()`:
the means of the numeric columns of one school's group. -/
structure AggRow where
  school : Str
  mFresh : PVal
  mLeaf : PVal
  mShoot : PVal
  mEc : PVal
deriving DecidableEq

/-- The mean row of one group of `all_growth_df.groupby('school')`. -/
def groupMeanRow (rows : List GrowthRec) (s : Str) : AggRow :=
  let g := rows.filter fun r => r.school == s
  ⟨s, pmean (g.map (·.freshWeight)), pmean (g.map (·.leafCount)),
   pmean (g.map (·.shootLength)), pmean (g.map (·.ec_target))⟩

/-- Embedding of lines 194-197: group the unified table by school, take
column means, attach `ec_val = school_config[school]['ec_target']`, and
sort the summary rows by `ec_val` ascending. -/
def growth_agg (rows : List GrowthRec) : List (AggRow × ℚ) :=
  List.insertionSort (fun a b => a.2 ≤ b.2)
    (((groupKeys rows).map (groupMeanRow rows)).map fun r => (r, ecTargetOf r.school))

/-! ### Helper lemmas -/

theorem fileMatches_iff {t f : Str} : fileMatches t f = true ↔ f = nfc t ∨ f = nfd t := by
  simp [fileMatches]

theorem lookupDict_dictInsert_self (k : Str) (v : α) (d : List (Str × α)) :
    lookupDict k (dictInsert k v d) = some v := by
  induction d with
  | nil => simp [dictInsert, lookupDict]
  | cons p rest ih =>
    obtain ⟨k', v'⟩ := p
    by_cases h : k' = k
    · simp [dictInsert, lookupDict, h]
    · simp [dictInsert, lookupDict, h, ih]

theorem lookupDict_dictInsert_ne {k k' : Str} (h : k' ≠ k) (v : α) (d : List (Str × α)) :
    lookupDict k (dictInsert k' v d) = lookupDict k d := by
  induction d with
  | nil => simp [dictInsert, lookupDict, h]
  | cons p rest ih =>
    obtain ⟨k'', v''⟩ := p
    by_cases h2 : k'' = k'
    · subst h2
      simp [dictInsert, lookupDict, h]
    · by_cases h3 : k'' = k
      · simp [dictInsert, lookupDict, h2, h3, Ne.symm h]
      · simp [dictInsert, lookupDict, h2, h3, ih]

theorem mem_keys_iff_lookup {s : Str} {d : List (Str × α)} :
    s ∈ d.map (·.1) ↔ (lookupDict s d).isSome := by
  induction d with
  | nil => simp [lookupDict]
  | cons p rest ih =>
    obtain ⟨k, v⟩ := p
    by_cases h : k = s
    · simp [lookupDict, h]
    · simp [lookupDict, h, ih, Ne.symm h]

theorem lookup_foldIns_nomem {s : Str} (names : List Str) (hs : s ∉ names)
    (p : Str → Bool) (f : Str → α) (acc : List (Str × α)) :
    lookupDict s (names.foldl (fun a n => if p n then dictInsert n (f n) a else a) acc)
      = lookupDict s acc := by
  induction names generalizing acc with
  | nil => rfl
  | cons n rest ih =>
    simp only [List.mem_cons, not_or] at hs
    rw [List.foldl_cons, ih hs.2]
    by_cases hp : p n
    · simp [hp, lookupDict_dictInsert_ne (Ne.symm hs.1)]
    · simp [hp]

theorem lookup_foldIns_mem {s : Str} (names : List Str) (hnd : names.Nodup) (hs : s ∈ names)
    (p : Str → Bool) (f : Str → α) (acc : List (Str × α)) :
    lookupDict s (names.foldl (fun a n => if p n then dictInsert n (f n) a else a) acc)
      = if p s then some (f s) else lookupDict s acc := by
  induction names generalizing acc with
  | nil => cases hs
  | cons n rest ih =>
    rw [List.foldl_cons]
    rcases List.mem_cons.mp hs with rfl | hmem
    · have hnot : s ∉ rest := (List.nodup_cons.mp hnd).1
      rw [lookup_foldIns_nomem rest hnot]
      by_cases hp : p s
      · simp [hp, lookupDict_dictInsert_self]
      · simp [hp]
    · have hne : n ≠ s := by
        rintro rfl
        exact (List.nodup_cons.mp hnd).1 hmem
      rw [ih (List.nodup_cons.mp hnd).2 hmem]
      by_cases hp : p n
      · simp [hp, lookupDict_dictInsert_ne hne]
      · simp [hp]

theorem lookup_assignSheet {s : Str} (hs : s ∈ schoolNames)
    (acc : List (Str × List GrowthRec)) (sh : Str × List GrowthRow) :
    lookupDict s (assignSheet acc sh)
      = if hasSubstr s (nfc sh.1) then some (tagRows s sh.2) else lookupDict s acc :=
  lookup_foldIns_mem schoolNames (by decide) hs _ _ acc

theorem lookup_assignSheet_nomem {s : Str} (hs : s ∉ schoolNames)
    (acc : List (Str × List GrowthRec)) (sh : Str × List GrowthRow) :
    lookupDict s (assignSheet acc sh) = lookupDict s acc :=
  lookup_foldIns_nomem schoolNames hs _ _ acc

theorem lookup_classify_go {s : Str} (hs : s ∈ schoolNames)
    (sheets : List (Str × List GrowthRow)) (acc : List (Str × List GrowthRec)) :
    lookupDict s (sheets.foldl assignSheet acc)
      = ((sheets.reverse.find? fun sh => hasSubstr s (nfc sh.1)).map
          fun sh => tagRows s sh.2).or (lookupDict s acc) := by
  induction sheets generalizing acc with
  | nil => rfl
  | cons sh rest ih =>
    rw [List.foldl_cons, ih, List.reverse_cons, List.find?_append]
    cases hfind : rest.reverse.find? fun sh => hasSubstr s (nfc sh.1) with
    | some x => simp [hfind]
    | none =>
      rw [lookup_assignSheet hs]
      by_cases hm : hasSubstr s (nfc sh.1)
      · simp [hfind, hm]
      · simp [hfind, hm]

theorem lookup_classify_nomem {s : Str} (hs : s ∉ schoolNames)
    (sheets : List (Str × List GrowthRow)) :
    lookupDict s (classifySheets sheets) = none := by
  have h : ∀ acc, lookupDict s (sheets.foldl assignSheet acc) = lookupDict s acc := by
    induction sheets with
    | nil => intro acc; rfl
    | cons sh rest ih =>
      intro acc
      rw [List.foldl_cons, ih, lookup_assignSheet_nomem hs]
  simpa [lookupDict] using h []

theorem lookup_classify {s : Str} (hs : s ∈ schoolNames)
    (sheets : List (Str × List GrowthRow)) :
    lookupDict s (classifySheets sheets)
      = (sheets.reverse.find? fun sh => hasSubstr s (nfc sh.1)).map fun sh => tagRows s sh.2 := by
  rw [classifySheets, lookup_classify_go hs]
  rw [show lookupDict s ([] : List (Str × List GrowthRec)) = none from rfl, Option.or_none]

theorem mem_keys_classify {s : Str} (sheets : List (Str × List GrowthRow)) :
    s ∈ (classifySheets sheets).map (·.1)
      ↔ s ∈ schoolNames ∧ ∃ sh ∈ sheets, hasSubstr s (nfc sh.1) := by
  by_cases hs : s ∈ schoolNames
  · rw [mem_keys_iff_lookup, lookup_classify hs]
    simp only [Option.isSome_map']
    rw [List.find?_isSome]
    simp [hs, List.mem_reverse]
  · rw [mem_keys_iff_lookup, lookup_classify_nomem hs]
    simp [hs]

theorem mem_keys_loadEnvAux (fs : FS) (names : List Str) (s : Str) :
    s ∈ (names.filterMap fun n =>
          (resolveFile fs.files (envTargetName n)).map fun m => (n, tagEnvRows n (fs.csv m))).map (·.1)
      ↔ s ∈ names ∧ (resolveFile fs.files (envTargetName s)).isSome := by
  induction names with
  | nil => simp
  | cons n rest ih =>
    cases hres : resolveFile fs.files (envTargetName n) with
    | none =>
      simp only [List.filterMap_cons, hres, Option.map_none']
      rw [ih]
      constructor
      · rintro ⟨h1, h2⟩
        exact ⟨List.mem_cons_of_mem n h1, h2⟩
      · rintro ⟨h1, h2⟩
        rcases List.mem_cons.mp h1 with rfl | h1
        · rw [hres] at h2
          cases h2
        · exact ⟨h1, h2⟩
    | some m =>
      simp only [List.filterMap_cons, hres, Option.map_some', List.map_cons, List.mem_cons]
      rw [ih]
      constructor
      · rintro (h | ⟨h1, h2⟩)
        · refine ⟨Or.inl h, ?_⟩
          rw [h, hres]
          rfl
        · exact ⟨Or.inr h1, h2⟩
      · rintro ⟨h | h1, h2⟩
        · exact Or.inl h
        · exact Or.inr ⟨h1, h2⟩

theorem mem_keys_loadEnv {s : Str} (fs : FS) :
    s ∈ (loadEnv fs).map (·.1)
      ↔ s ∈ schoolNames ∧ (resolveFile fs.files (envTargetName s)).isSome :=
  mem_keys_loadEnvAux fs schoolNames s

theorem mem_foldr_append {r : α} {ls : List (List α)} :
    r ∈ ls.foldr (· ++ ·) [] ↔ ∃ l ∈ ls, r ∈ l := by
  induction ls with
  | nil => simp
  | cons l rest ih => simp [ih]

/-! ### Entry-shape invariants of the classifier output -/

theorem mem_dictInsert {p : Str × α} {k : Str} {v : α} {d : List (Str × α)}
    (h : p ∈ dictInsert k v d) : p = (k, v) ∨ p ∈ d := by
  induction d with
  | nil => simpa [dictInsert] using h
  | cons q rest ih =>
    obtain ⟨k', v'⟩ := q
    by_cases hk : k' = k
    · rw [dictInsert, if_pos hk] at h
      rcases List.mem_cons.mp h with rfl | h2
      · exact Or.inl rfl
      · exact Or.inr (List.mem_cons_of_mem _ h2)
    · rw [dictInsert, if_neg hk] at h
      rcases List.mem_cons.mp h with rfl | h2
      · exact Or.inr (List.mem_cons_self _ _)
      · rcases ih h2 with h3 | h3
        · exact Or.inl h3
        · exact Or.inr (List.mem_cons_of_mem _ h3)

theorem mem_foldIns {names : List Str} {p : Str × α} {pr : Str → Bool} {f : Str → α}
    {acc : List (Str × α)}
    (h : p ∈ names.foldl (fun a n => if pr n then dictInsert n (f n) a else a) acc) :
    (∃ n, p = (n, f n)) ∨ p ∈ acc := by
  induction names generalizing acc with
  | nil => exact Or.inr h
  | cons n rest ih =>
    rw [List.foldl_cons] at h
    rcases ih h with h1 | h2
    · exact Or.inl h1
    · by_cases hpr : pr n
      · rw [if_pos hpr] at h2
        rcases mem_dictInsert h2 with h3 | h3
        · exact Or.inl ⟨n, h3⟩
        · exact Or.inr h3
      · rw [if_neg hpr] at h2
        exact Or.inr h2

theorem classify_go_shape (sheets : List (Str × List GrowthRow)) :
    ∀ acc : List (Str × List GrowthRec),
      (∀ q ∈ acc, ∃ rows, q = (q.1, tagRows q.1 rows)) →
      ∀ q ∈ sheets.foldl assignSheet acc, ∃ rows, q = (q.1, tagRows q.1 rows) := by
  induction sheets with
  | nil => exact fun acc hacc => hacc
  | cons sh rest ih =>
    intro acc hacc q hq
    rw [List.foldl_cons] at hq
    refine ih (assignSheet acc sh) ?_ q hq
    intro q' hq'
    rcases mem_foldIns (p := q') hq' with ⟨n, rfl⟩ | h2
    · exact ⟨sh.2, rfl⟩
    · exact hacc q' h2

theorem classify_entry_shape {sheets : List (Str × List GrowthRow)}
    {p : Str × List GrowthRec} (h : p ∈ classifySheets sheets) :
    ∃ rows, p = (p.1, tagRows p.1 rows) :=
  classify_go_shape sheets [] (by intro q hq; cases hq) p h

theorem mem_tagRows {r : GrowthRec} {s : Str} {rows : List GrowthRow}
    (h : r ∈ tagRows s rows) : r.school = s ∧ r.ec_target = ecTargetOf s := by
  obtain ⟨row, _, rfl⟩ := List.mem_map.mp h
  exact ⟨rfl, rfl⟩

theorem loadGrowth_entry_shape {fs : FS} {p : Str × List GrowthRec}
    (h : p ∈ loadGrowth fs) : ∃ rows, p = (p.1, tagRows p.1 rows) := by
  rw [loadGrowth] at h
  cases hx : resolveFile fs.files xlsxName with
  | none =>
    rw [hx] at h
    cases h
  | some m =>
    rw [hx] at h
    exact classify_entry_shape h

/-! ### Demonstration inputs used by the witnesses -/

/-- A concrete growth row (fresh weight 12 g, 5 leaves, 80 mm). -/
def demoRow : GrowthRow := ⟨12, 5, 80⟩

/-- A second concrete growth row. -/
def demoRow2 : GrowthRow := ⟨20, 6, 200⟩

/-- A source directory holding only the growth workbook, whose single
sheet belongs to 하늘고. -/
def demoFS : FS :=
  ⟨true, [xlsxName], fun _ => [], fun _ => [(strCodes "하늘고 결과", [demoRow])]⟩

/-- The record the loader produces from `demoRow` for 하늘고. -/
def demoRec : GrowthRec := ⟨demoRow, strCodes "하늘고", ecTargetOf (strCodes "하늘고")⟩

/-! ### Claim theorems -/

/-- **C9.** When the source directory is absent, `load_data` takes the
early `return None, None` (after `st.error`): the whole load fails and no
school's table is delivered to the caller in either mapping. -/
theorem load_missing_dir_no_partial (fs : FS) (h : fs.dirExists = false) :
    load_data fs = none := by
  simp [load_data, h]

/-- Witness for C9 at a concrete filesystem with no `data` directory. -/
theorem load_missing_dir_no_partial_witness :
    load_data ⟨false, [], fun _ => [], fun _ => []⟩ = none :=
  load_missing_dir_no_partial ⟨false, [], fun _ => [], fun _ => []⟩ rfl

/-- **C2.** The Filename Resolver compares listing names as stored against
the NFC and NFD forms of the target: it returns no-match exactly when zero
files qualify; any returned file is a qualifying member of the listing; and
when a qualifying file is preceded only by non-qualifying ones it is the
one returned — so with several qualifying files (e.g. both normal forms
present) exactly one, the first in iteration order, is returned. -/
theorem resolver_first_match (files : List Str) (target : Str) :
    (resolveFile files target = none ↔ ∀ f ∈ files, ¬(f = nfc target ∨ f = nfd target))
    ∧ (∀ f, resolveFile files target = some f → f ∈ files ∧ (f = nfc target ∨ f = nfd target))
    ∧ (∀ pre f post, files = pre ++ f :: post →
        (∀ g ∈ pre, ¬(g = nfc target ∨ g = nfd target)) →
        (f = nfc target ∨ f = nfd target) →
        resolveFile files target = some f) := by
  refine ⟨?_, ?_, ?_⟩
  · simp only [resolveFile, List.find?_eq_none, fileMatches_iff]
  · intro f h
    exact ⟨List.mem_of_find?_eq_some h, fileMatches_iff.mp (List.find?_some h)⟩
  · intro pre f post heq hpre hm
    subst heq
    rw [resolveFile, List.find?_append]
    have hnone : pre.find? (fileMatches target) = none :=
      List.find?_eq_none.mpr fun g hg hmat => hpre g hg (fileMatches_iff.mp hmat)
    rw [hnone, List.find?_cons_of_pos _ (fileMatches_iff.mpr hm)]
    rfl

/-- Witness for C2: with both the NFC-form file and the NFD-form file
present, the resolver returns exactly the first. -/
theorem resolver_first_match_witness :
    resolveFile [nfc (envTargetName (strCodes "송도고")), nfd (envTargetName (strCodes "송도고"))]
        (envTargetName (strCodes "송도고"))
      = some (nfc (envTargetName (strCodes "송도고"))) :=
  (resolver_first_match _ _).2.2 [] _ [nfd (envTargetName (strCodes "송도고"))] rfl
    (by intro g hg; cases hg) (Or.inl rfl)

/-- The two Hangul normal forms of each school's CSV target name cohere:
renormalizing the NFC form with NFD (resp. the NFD form with NFC) gives
back the same two comparison keys the resolver computes from the raw
literal. -/
theorem nfc_nfd_coherent : ∀ s ∈ schoolNames,
    nfd (nfc (envTargetName s)) = nfd (envTargetName s)
    ∧ nfc (nfd (envTargetName s)) = nfc (envTargetName s) := by decide

/-- **C5.** Unicode round-trip of the Filename Resolver: for every school,
a target filename stored on disk in fully-decomposed (NFD) form is still
resolved when the resolver's internal target string is the precomposed
(NFC) form, and vice versa. -/
theorem resolver_unicode_roundtrip :
    ∀ s ∈ schoolNames, ∀ files : List Str,
      (nfd (envTargetName s) ∈ files →
        (resolveFile files (nfc (envTargetName s))).isSome = true)
      ∧ (nfc (envTargetName s) ∈ files →
        (resolveFile files (nfd (envTargetName s))).isSome = true) := by
  intro s hs files
  obtain ⟨h1, h2⟩ := nfc_nfd_coherent s hs
  constructor
  · intro hmem
    exact List.find?_isSome.mpr ⟨_, hmem, fileMatches_iff.mpr (Or.inr h1.symm)⟩
  · intro hmem
    exact List.find?_isSome.mpr ⟨_, hmem, fileMatches_iff.mpr (Or.inl h2.symm)⟩

/-- Witness for C5: 하늘고's CSV stored in NFD form is found although the
internal target is the NFC form. -/
theorem resolver_unicode_roundtrip_witness :
    (resolveFile [nfd (envTargetName (strCodes "하늘고"))]
        (nfc (envTargetName (strCodes "하늘고")))).isSome = true :=
  (resolver_unicode_roundtrip (strCodes "하늘고") (by decide)
    [nfd (envTargetName (strCodes "하늘고"))]).1 (by decide)

/-- **C10.** When several workbook sheets are classified to the same
school, each later matching sheet's dict assignment overwrites the earlier
one: the school's surviving table is exactly the tagged rows of the *last*
matching sheet in sheet order (and absent when no sheet matches). -/
theorem classify_last_sheet_wins (sheets : List (Str × List GrowthRow)) (s : Str)
    (hs : s ∈ schoolNames) :
    lookupDict s (classifySheets sheets)
      = (sheets.reverse.find? fun sh => hasSubstr s (nfc sh.1)).map fun sh => tagRows s sh.2 :=
  lookup_classify hs sheets

/-- Witness for C10: two sheets both match 송도고; the surviving table is
the second sheet's. -/
theorem classify_last_sheet_wins_witness :
    lookupDict (strCodes "송도고")
        (classifySheets [(strCodes "송도고 1반", [demoRow]), (strCodes "송도고 2반", [demoRow2])])
      = some (tagRows (strCodes "송도고") [demoRow2]) :=
  (classify_last_sheet_wins
      [(strCodes "송도고 1반", [demoRow]), (strCodes "송도고 2반", [demoRow2])]
      (strCodes "송도고") (by decide)).trans (by decide)

/-- **C1, counterexample.** The claim says a sheet is assigned to *at most
one* school, the first matching one.  The classification loop has no
`break`: a sheet whose NFC-normalized name contains two registered
identifiers is assigned to both schools — here the single sheet
"송도고하늘고" produces entries for 송도고 *and* 하늘고. -/
theorem classify_two_schools_counterexample :
    (strCodes "송도고", ([] : List GrowthRec)) ∈ classifySheets [(strCodes "송도고하늘고", [])]
    ∧ (strCodes "하늘고", ([] : List GrowthRec)) ∈ classifySheets [(strCodes "송도고하늘고", [])] := by
  decide

/-- **C1, amended.** Each sheet is assigned to *every* school whose
identifier is a substring of the NFC-normalized sheet name (not only the
first in enumeration order), and a sheet containing no registered
identifier contributes nothing: a school appears in the output mapping
exactly when some sheet's normalized name contains its identifier. -/
theorem classify_assigns_every_matching_school (sheets : List (Str × List GrowthRow)) (s : Str) :
    s ∈ (classifySheets sheets).map (·.1)
      ↔ s ∈ schoolNames ∧ ∃ sh ∈ sheets, hasSubstr s (nfc sh.1) :=
  mem_keys_classify sheets

/-- **C6.** Every GrowthRecord the loader delivers is tagged with the
school of its sheet, and its `ec_target` attribute equals that school's
registered target EC from `school_info`. -/
theorem growth_ec_matches_registry (fs : FS) (env : List (Str × List EnvRec))
    (growth : List (Str × List GrowthRec)) (h : load_data fs = some (env, growth)) :
    ∀ p ∈ growth, ∀ r ∈ p.2, r.school = p.1 ∧ r.ec_target = ecTargetOf p.1 := by
  intro p hp r hr
  have hgrowth : growth = loadGrowth fs := by
    rw [load_data] at h
    by_cases hd : fs.dirExists
    · rw [if_pos hd] at h
      injection h with h2
      exact (congrArg Prod.snd h2).symm
    · rw [if_neg hd] at h
      cases h
  rw [hgrowth] at hp
  obtain ⟨rows, hshape⟩ := loadGrowth_entry_shape hp
  have : r ∈ tagRows p.1 rows := by
    have := congrArg Prod.snd hshape
    simp only at this
    rwa [this] at hr
  exact mem_tagRows this

/-- Witness for C6: the record loaded from `demoFS`'s single sheet carries
하늘고's registered target EC. -/
theorem growth_ec_matches_registry_witness :
    demoRec.school = strCodes "하늘고" ∧ demoRec.ec_target = ecTargetOf (strCodes "하늘고") :=
  growth_ec_matches_registry demoFS (loadEnv demoFS) (loadGrowth demoFS) rfl
    (strCodes "하늘고", tagRows (strCodes "하늘고") [demoRow]) (by decide)
    demoRec (by decide)

/-! ### Removal of one school's environment file (C3's partial-coverage scenario) -/

/-- The same source directory with every file qualifying as school `s0`'s
environment CSV removed from the listing. -/
def removeEnvFile (s0 : Str) (fs : FS) : FS :=
  { fs with files := fs.files.filter fun f => !(fileMatches (envTargetName s0) f) }

/-- The comparison keys (NFC and NFD forms) of distinct schools' CSV
target names never collide. -/
theorem envTarget_keys_disjoint : ∀ s ∈ schoolNames, ∀ t ∈ schoolNames, s ≠ t →
    nfc (envTargetName s) ≠ nfc (envTargetName t)
    ∧ nfc (envTargetName s) ≠ nfd (envTargetName t)
    ∧ nfd (envTargetName s) ≠ nfc (envTargetName t)
    ∧ nfd (envTargetName s) ≠ nfd (envTargetName t) := by decide

/-- A file qualifying as one school's CSV never qualifies as another's. -/
theorem fileMatches_exclusive {s t : Str} (hs : s ∈ schoolNames) (ht : t ∈ schoolNames)
    (hne : s ≠ t) {f : Str} (hf : fileMatches (envTargetName s) f = true) :
    fileMatches (envTargetName t) f = false := by
  obtain ⟨h1, h2, h3, h4⟩ := envTarget_keys_disjoint s hs t ht hne
  rcases fileMatches_iff.mp hf with rfl | rfl
  · simp [fileMatches, h1, h2]
  · simp [fileMatches, h3, h4]

theorem resolve_env_after_remove {s s0 : Str} (hs : s ∈ schoolNames) (hs0 : s0 ∈ schoolNames)
    (fs : FS) :
    (resolveFile (removeEnvFile s0 fs).files (envTargetName s)).isSome
      ↔ s ≠ s0 ∧ (resolveFile fs.files (envTargetName s)).isSome := by
  simp only [removeEnvFile, resolveFile]
  constructor
  · intro h
    obtain ⟨f, hf, hmat⟩ := List.find?_isSome.mp h
    obtain ⟨hfmem, hkeep⟩ := List.mem_filter.mp hf
    refine ⟨?_, List.find?_isSome.mpr ⟨f, hfmem, hmat⟩⟩
    rintro rfl
    rw [hmat] at hkeep
    cases hkeep
  · rintro ⟨hne, h⟩
    obtain ⟨f, hf, hmat⟩ := List.find?_isSome.mp h
    refine List.find?_isSome.mpr ⟨f, List.mem_filter.mpr ⟨hf, ?_⟩, hmat⟩
    rw [fileMatches_exclusive hs hs0 hne hmat]
    rfl

/-- Splitting a successful `load_data` result into its components. -/
theorem load_data_some {fs : FS} {env : List (Str × List EnvRec)}
    {growth : List (Str × List GrowthRec)} (h : load_data fs = some (env, growth)) :
    env = loadEnv fs ∧ growth = loadGrowth fs ∧ fs.dirExists = true := by
  rw [load_data] at h
  by_cases hd : fs.dirExists
  · rw [if_pos hd] at h
    injection h with h2
    exact ⟨(congrArg Prod.fst h2).symm, (congrArg Prod.snd h2).symm, hd⟩
  · rw [if_neg hd] at h
    cases h

/-- **C3.** The keys of the two result mappings are exactly the schools
with a resolved environment file (for `env_dfs`) and exactly the schools
with a classified growth sheet (for `growth_df_dict`); a school with
neither is simply omitted.  Removing one school's environment file from
the listing yields an environment mapping with exactly the remaining
schools present — never a phantom entry for the removed school. -/
theorem load_keys_exact (fs : FS) (env : List (Str × List EnvRec))
    (growth : List (Str × List GrowthRec)) (h : load_data fs = some (env, growth)) :
    (∀ s, s ∈ env.map (·.1)
      ↔ s ∈ schoolNames ∧ (resolveFile fs.files (envTargetName s)).isSome)
    ∧ (∀ s, s ∈ growth.map (·.1)
      ↔ s ∈ schoolNames ∧ ∃ m, resolveFile fs.files xlsxName = some m
          ∧ ∃ sh ∈ fs.sheets m, hasSubstr s (nfc sh.1))
    ∧ (∀ s0 ∈ schoolNames, ∀ env' growth',
        load_data (removeEnvFile s0 fs) = some (env', growth') →
        ∀ s, s ∈ env'.map (·.1) ↔ s ∈ env.map (·.1) ∧ s ≠ s0) := by
  obtain ⟨he, hg, _⟩ := load_data_some h
  refine ⟨?_, ?_, ?_⟩
  · intro s
    rw [he]
    exact mem_keys_loadEnv fs
  · intro s
    rw [hg, loadGrowth]
    cases hx : resolveFile fs.files xlsxName with
    | none =>
      simp [hx]
    | some m =>
      show s ∈ (classifySheets (fs.sheets m)).map (·.1) ↔ _
      rw [mem_keys_classify]
      constructor
      · rintro ⟨h1, sh, hsh, hsub⟩
        exact ⟨h1, m, rfl, sh, hsh, hsub⟩
      · rintro ⟨h1, m', hm', sh, hsh, hsub⟩
        injection hm' with hmm
        subst hmm
        exact ⟨h1, sh, hsh, hsub⟩
  · intro s0 hs0 env' growth' h' s
    obtain ⟨he', _, _⟩ := load_data_some h'
    rw [he', he, mem_keys_loadEnv, mem_keys_loadEnv]
    by_cases hs : s ∈ schoolNames
    · rw [resolve_env_after_remove hs hs0 fs]
      constructor
      · rintro ⟨_, hne, hsome⟩
        exact ⟨⟨hs, hsome⟩, hne⟩
      · rintro ⟨⟨_, hsome⟩, hne⟩
        exact ⟨hs, hne, hsome⟩
    · simp [hs]

/-- Witness for C3 at `demoFS` (workbook present, no CSVs): the growth
mapping holds exactly 하늘고 and the environment mapping is key-free. -/
theorem load_keys_exact_witness :
    strCodes "하늘고" ∈ (loadGrowth demoFS).map (·.1)
      ↔ strCodes "하늘고" ∈ schoolNames ∧ ∃ m, resolveFile demoFS.files xlsxName = some m
          ∧ ∃ sh ∈ demoFS.sheets m, hasSubstr (strCodes "하늘고") (nfc sh.1) :=
  (load_keys_exact demoFS (loadEnv demoFS) (loadGrowth demoFS) rfl).2.1 (strCodes "하늘고")

/-! ### C7: the unify step -/

/-- **C7, counterexample.** The claim says zero GrowthTables yield an
*empty* UnifiedGrowthTable.  In the program, `st.stop()` (line 84) halts
the script before `pd.concat` whenever `growth_data` is empty (and
`pd.concat` of zero objects would raise `ValueError`): no empty unified
table is ever produced. -/
theorem unify_empty_counterexample :
    ¬ (all_growth_df [(strCodes "송도고", [])] [] = some []) := by decide

/-- **C7, amended.** With zero GrowthTables the script halts before the
unify step (no unified table is produced); with at least one environment
table and at least one GrowthTable, unify produces the concatenation of
all present GrowthTables, the per-row school tag preserved (a row is in
the unified table exactly when it is in some school's table). -/
theorem unify_guard_and_concat (env : List (Str × List EnvRec))
    (growth : List (Str × List GrowthRec)) (henv : env ≠ []) :
    (all_growth_df env [] = none)
    ∧ (growth ≠ [] → ∃ u, all_growth_df env growth = some u
        ∧ ∀ r : GrowthRec, r ∈ u ↔ ∃ p ∈ growth, r ∈ p.2) := by
  constructor
  · simp [all_growth_df]
  · intro hg
    refine ⟨(growth.map (·.2)).foldr (· ++ ·) [], ?_, ?_⟩
    · cases env with
      | nil => exact absurd rfl henv
      | cons e es =>
        cases growth with
        | nil => exact absurd rfl hg
        | cons g gs => rfl
    · intro r
      rw [mem_foldr_append]
      constructor
      · rintro ⟨l, hl, hr⟩
        obtain ⟨p, hp, rfl⟩ := List.mem_map.mp hl
        exact ⟨p, hp, hr⟩
      · rintro ⟨p, hp, hr⟩
        exact ⟨p.2, List.mem_map.mpr ⟨p, hp, rfl⟩, hr⟩

/-- Witness for C7 at concrete inputs: one environment table, and one
growth table holding `demoRec`. -/
theorem unify_guard_and_concat_witness :
    all_growth_df [(strCodes "송도고", [])] [] = none
    ∧ (∃ u, all_growth_df [(strCodes "송도고", [])]
          [(strCodes "하늘고", tagRows (strCodes "하늘고") [demoRow])] = some u
        ∧ ∀ r : GrowthRec, r ∈ u
            ↔ ∃ p ∈ [(strCodes "하늘고", tagRows (strCodes "하늘고") [demoRow])], r ∈ p.2) :=
  ⟨(unify_guard_and_concat [(strCodes "송도고", [])] [] (by decide)).1,
   (unify_guard_and_concat [(strCodes "송도고", [])]
      [(strCodes "하늘고", tagRows (strCodes "하늘고") [demoRow])] (by decide)).2 (by decide)⟩

/-! ### C8: environment summary of an empty table -/

/-- **C8, counterexample.** The claim says an empty table's mean is
treated as absent rather than a NaN value propagating into the stats.  In
the code `df['temperature'].mean()` of an empty table is NaN and the
school's row stays in `stat_df` carrying it: here the stats of a school
with an empty table contain a NaN mean. -/
theorem env_stats_nan_counterexample :
    ¬ (∀ e ∈ env_stats [(strCodes "송도고", [])], e.temp ≠ PVal.nan) := by decide

/-- **C8, amended.** For each school with an EnvironmentTable the
aggregator computes the arithmetic mean of temperature, humidity, pH and
measured EC; a school with an *empty* table keeps its row in the stats,
with every mean equal to NaN — NaN propagates rather than the row or the
value being treated as absent. -/
theorem env_stats_empty_table_nan (env : List (Str × List EnvRec)) (s : Str)
    (df : List EnvRec) (h : (s, df) ∈ env) :
    ∃ e ∈ env_stats env, e.school = s
      ∧ e.temp = pmean (df.map (·.temperature))
      ∧ e.hum = pmean (df.map (·.humidity))
      ∧ e.ph = pmean (df.map (·.ph))
      ∧ e.ecActual = pmean (df.map (·.ec))
      ∧ (df = [] → e.temp = PVal.nan ∧ e.hum = PVal.nan
          ∧ e.ph = PVal.nan ∧ e.ecActual = PVal.nan) := by
  refine ⟨_, List.mem_map.mpr ⟨(s, df), h, rfl⟩, rfl, rfl, rfl, rfl, rfl, ?_⟩
  rintro rfl
  exact ⟨rfl, rfl, rfl, rfl⟩

/-- Witness for C8 at a school whose environment table is empty. -/
theorem env_stats_empty_table_nan_witness :
    ∃ e ∈ env_stats [(strCodes "송도고", [])], e.school = strCodes "송도고"
      ∧ e.temp = pmean (([] : List EnvRec).map (·.temperature))
      ∧ e.hum = pmean (([] : List EnvRec).map (·.humidity))
      ∧ e.ph = pmean (([] : List EnvRec).map (·.ph))
      ∧ e.ecActual = pmean (([] : List EnvRec).map (·.ec))
      ∧ (([] : List EnvRec) = [] → e.temp = PVal.nan ∧ e.hum = PVal.nan
          ∧ e.ph = PVal.nan ∧ e.ecActual = PVal.nan) :=
  env_stats_empty_table_nan [(strCodes "송도고", [])] (strCodes "송도고") [] (by decide)

/-! ### C4: growth summary ordering -/

instance : IsTotal (AggRow × ℚ) fun a b => a.2 ≤ b.2 := ⟨fun a b => le_total a.2 b.2⟩

instance : IsTrans (AggRow × ℚ) fun a b => a.2 ≤ b.2 := ⟨fun _ _ _ h h' => le_trans h h'⟩

/-- Growth tables for three of the four schools (target EC 1, 4 and 8;
the EC-2 school 하늘고 has no data), in a deliberately unsorted load
order. -/
def demoGrowthDict : List (Str × List GrowthRec) :=
  [(strCodes "아라고", tagRows (strCodes "아라고") [demoRow2]),
   (strCodes "송도고", tagRows (strCodes "송도고") [demoRow]),
   (strCodes "동산고", tagRows (strCodes "동산고") [demoRow])]

/-- The unified table of `demoGrowthDict`. -/
def demoUnified : List GrowthRec := (demoGrowthDict.map (·.2)).foldr (· ++ ·) []

/-- **C4.** The per-school growth summary is sorted by the school's
registered target EC ascending, whatever the order schools were loaded in
(its attached `ec_val` key is always the registry EC of the row's school);
and in the concrete three-of-four-schools scenario the unified table
contains only rows of the three present schools while the summary has
exactly 3 rows ordered 1 < 4 < 8, the EC-2 school simply absent. -/
theorem growth_summary_sorted_by_ec :
    (∀ rows : List GrowthRec,
      List.Pairwise (fun a b : AggRow × ℚ => a.2 ≤ b.2) (growth_agg rows)
      ∧ ∀ p ∈ growth_agg rows, p.2 = ecTargetOf p.1.school)
    ∧ (all_growth_df [(strCodes "송도고", [])] demoGrowthDict = some demoUnified
      ∧ (growth_agg demoUnified).map (·.2) = [(1 : ℚ), 4, 8]
      ∧ ∀ r ∈ demoUnified,
          r.school ∈ [strCodes "송도고", strCodes "아라고", strCodes "동산고"]) := by
  refine ⟨fun rows => ⟨?_, ?_⟩, rfl, ?_, ?_⟩
  · exact List.sorted_insertionSort (fun a b : AggRow × ℚ => a.2 ≤ b.2) _
  · intro p hp
    have hmem := (List.mem_insertionSort (fun a b : AggRow × ℚ => a.2 ≤ b.2)).mp hp
    obtain ⟨r, hr, rfl⟩ := List.mem_map.mp hmem
    rfl
  · decide
  · decide
